import Mathlib

/-!
Verification of the JSON value-handle core (`src/src/json_item.cpp`).

The repository ships only the handle layer (`JsonItem`).  The node layer
(`DataItem`/`DataValue`/`DataObject`/`DataArray` of `data_items.h`), the
header with the member declarations, and the parser collaborator are not
part of the repository's files, so those definitions are modelled from the
specification's words; each such definition carries a doc comment starting
with "Modelled from the spec".  Everything on the handle type `JsonItem`
is translated directly from `json_item.cpp`.
-/

/-- Modelled from the spec: the scalar sub-kinds of a Value Node -- "Scalar:
one of String, Integer, Float; exactly one active representation at a time"
(spec section 3).  The C++ floating-point payload is modelled as a rational
number; no claim performs arithmetic on it. -/
inductive DataValue where
  | strVal (s : String)
  | intVal (i : Int)
  | floatVal (q : Rat)
deriving DecidableEq

/-- Modelled from the spec: the sub-kind tag of a scalar (the code's
`DataItem::STRING_TYPE`, `INT_TYPE`, `FLOAT_TYPE`). -/
inductive ValueType where
  | stringType
  | intType
  | floatType
deriving DecidableEq

/-- Modelled from the spec: the variant tag of a node (the code's
`DataItem::VALUE_TYPE`, `OBJECT_TYPE`, `ARRAY_TYPE`). -/
inductive ItemType where
  | valueType
  | objectType
  | arrayType
deriving DecidableEq

/-- Modelled from the spec: the Value Node, a "tagged union" of Object
(mapping from string key to owned child, insertion order preserved), Array
(ordered sequence of owned children) and Scalar (spec section 3).  Children
are held by value: the embedding has value semantics, ownership is
represented by the handle's flag alone. -/
inductive DataItem where
  | value (v : DataValue)
  | object (entries : List (String × DataItem))
  | array (items : List DataItem)

/-- Modelled from the spec: `DataValue::getValueType()` -- the fixed
sub-kind of a scalar. -/
def DataValue.getValueType : DataValue → ValueType
  | .strVal _ => .stringType
  | .intVal _ => .intType
  | .floatVal _ => .floatType

/-- Modelled from the spec: `DataValue::toString()` -- "return the stored
value directly if the scalar's fixed sub-kind matches, else a defined
neutral default (empty string / 0)" (spec section 4.1). -/
def DataValue.toString : DataValue → String
  | .strVal s => s
  | _ => ""

/-- Modelled from the spec: `DataValue::toInt()`, neutral default 0 on a
sub-kind mismatch (spec section 4.1). -/
def DataValue.toInt : DataValue → Int
  | .intVal i => i
  | _ => 0

/-- Modelled from the spec: `DataValue::toFloat()`, neutral default 0 on a
sub-kind mismatch (spec section 4.1). -/
def DataValue.toFloat : DataValue → Rat
  | .floatVal q => q
  | _ => 0

/-- Modelled from the spec: `DataValue::setValue(string)`.  The handle-level
`setValue` "does not enforce sub-kind match with the node's existing scalar
sub-kind" (spec section 4.2), so the node-level write rebinds the sub-kind
to the incoming value's kind. -/
def DataValue.setValueStr (_ : DataValue) (s : String) : DataValue := .strVal s

/-- Modelled from the spec: `DataValue::setValue(int)`; rebinds the sub-kind
(see `DataValue.setValueStr`). -/
def DataValue.setValueInt (_ : DataValue) (i : Int) : DataValue := .intVal i

/-- Modelled from the spec: `DataValue::setValue(float)`; rebinds the
sub-kind (see `DataValue.setValueStr`). -/
def DataValue.setValueFloat (_ : DataValue) (q : Rat) : DataValue := .floatVal q

/-- Modelled from the spec: `new DataValue()`, the default-constructed
scalar used by the handle's auto-materialization.  The spec fixes no
sub-kind for it; a string scalar with empty text is used. -/
def DataValue.defaultScalar : DataValue := .strVal ""

/-- Modelled from the spec: `DataItem::getType()` -- "never fails"
(spec section 4.1). -/
def DataItem.getType : DataItem → ItemType
  | .value _ => .valueType
  | .object _ => .objectType
  | .array _ => .arrayType

/-- Modelled from the spec: `DataItem::toValue()` -- the scalar payload of a
node; `none` models the null pointer the downcast yields on an Object or an
Array. -/
def DataItem.toValue : DataItem → Option DataValue
  | .value v => some v
  | _ => none

mutual

/-- Modelled from the spec: `DataItem::copy()` -- "deep copy: recursively
duplicates the entire subtree; result is a fully independent owned tree"
(spec section 4.1).  Every constructor is rebuilt recursively. -/
def DataItem.copy : DataItem → DataItem
  | .value v => .value v
  | .object es => .object (copyEntries es)
  | .array xs => .array (copyList xs)

/-- Deep copy of an object's entry list (helper of `DataItem.copy`). -/
def copyEntries : List (String × DataItem) → List (String × DataItem)
  | [] => []
  | (k, t) :: rest => (k, t.copy) :: copyEntries rest

/-- Deep copy of an array's element list (helper of `DataItem.copy`). -/
def copyList : List DataItem → List DataItem
  | [] => []
  | t :: rest => t.copy :: copyList rest

end

mutual

/-- A deep copy is deep-equal to the original tree. -/
theorem DataItem.copy_eq : ∀ t : DataItem, t.copy = t
  | .value _ => rfl
  | .object es => by rw [DataItem.copy, copyEntries_eq es]
  | .array xs => by rw [DataItem.copy, copyList_eq xs]

/-- Entry lists are preserved by deep copy. -/
theorem copyEntries_eq : ∀ es : List (String × DataItem), copyEntries es = es
  | [] => rfl
  | (k, t) :: rest => by rw [copyEntries, DataItem.copy_eq t, copyEntries_eq rest]

/-- Element lists are preserved by deep copy. -/
theorem copyList_eq : ∀ xs : List DataItem, copyList xs = xs
  | [] => rfl
  | t :: rest => by rw [copyList, DataItem.copy_eq t, copyList_eq rest]

end

/-- Modelled from the spec: key membership in an object's entry list (the
code's `DataObject::contains`). -/
def DataObject.containsKey (es : List (String × DataItem)) (key : String) : Bool :=
  es.any (fun e => e.1 == key)

/-- Modelled from the spec: `DataObject::insert(key, node, force)` --
"Object only; fails (returns false, no mutation) if key exists and
force=false; otherwise inserts or overwrites, taking ownership of node"
(spec section 4.1).  Insertion order is preserved; an overwrite replaces
the stored value in place. -/
def DataObject.insert (es : List (String × DataItem)) (key : String)
    (node : DataItem) (force : Bool) : Bool × List (String × DataItem) :=
  if DataObject.containsKey es key then
    if force then (true, es.map (fun e => if e.1 == key then (e.1, node) else e))
    else (false, es)
  else (true, es ++ [(key, node)])

/-- Modelled from the spec: `DataArray::append(node)` -- "Array only;
appends, taking ownership" (spec section 4.1). -/
def DataArray.append (xs : List DataItem) (node : DataItem) : Bool × List DataItem :=
  (true, xs ++ [node])

/-- Modelled from the spec: `DataItem::get(key)` -- "Object only; null if
absent or wrong variant" (spec section 4.1). -/
def DataItem.getKey : DataItem → String → Option DataItem
  | .object es, key => (es.find? (fun e => e.1 == key)).map (fun e => e.2)
  | _, _ => none

/-- Modelled from the spec: `DataItem::get(index)` -- "Array only; null if
index >= size or wrong variant" (spec section 4.1). -/
def DataItem.getIndex : DataItem → Nat → Option DataItem
  | .array xs, i => xs[i]?
  | _, _ => none

/-- Modelled from the spec: `DataItem::getSize()` -- "Object: key count;
Array: element count; Scalar: undefined/0" (spec section 4.1). -/
def DataItem.getSize : DataItem → Nat
  | .value _ => 0
  | .object es => es.length
  | .array xs => xs.length

/-- Modelled from the spec: `DataObject::getKeys()` -- the keys in
insertion order (spec section 4.2). -/
def DataObject.getKeys (es : List (String × DataItem)) : List String :=
  es.map (fun e => e.1)

/-- Modelled from the spec: `DataItem::remove(key)` -- "fails if absent or
wrong variant; otherwise destroys and removes that entry" (spec
section 4.1). -/
def DataItem.removeKey : DataItem → String → Bool × DataItem
  | .object es, key =>
      if DataObject.containsKey es key then
        (true, .object (es.filter (fun e => !(e.1 == key))))
      else (false, .object es)
  | t, _ => (false, t)

/-- Modelled from the spec: `DataItem::remove(index)` -- "fails if
out-of-range or wrong variant; otherwise destroys and removes that entry,
shifting array indices down" (spec section 4.1). -/
def DataItem.removeIdx : DataItem → Nat → Bool × DataItem
  | .array xs, i =>
      if i < xs.length then (true, .array (xs.eraseIdx i)) else (false, .array xs)
  | t, _ => (false, t)

/-- Modelled from the spec: the rendering of one scalar by the serializer
collaborator. -/
def DataValue.printValue : DataValue → String
  | .strVal s => "\"" ++ s ++ "\""
  | .intVal i => ToString.toString i
  | .floatVal q => ToString.toString q

mutual

/-- Modelled from the spec: `DataItem::print(indent)` of the serializer
collaborator -- "recursive serialization; deterministic" (spec
section 4.1).  The exact textual grammar is out of the core's scope; a
compact JSON-like rendering is used, `indent` adding a space after each
separator. -/
def DataItem.print : DataItem → Bool → String
  | .value v, _ => DataValue.printValue v
  | .object es, ind => "\x7b" ++ printEntries es ind ++ "\x7d"
  | .array xs, ind => "[" ++ printElems xs ind ++ "]"

/-- Serialization of an object's entry list (helper of `DataItem.print`). -/
def printEntries : List (String × DataItem) → Bool → String
  | [], _ => ""
  | [(k, t)], ind => "\"" ++ k ++ "\":" ++ t.print ind
  | (k, t) :: rest, ind =>
      "\"" ++ k ++ "\":" ++ t.print ind ++ (if ind then ", " else ",") ++ printEntries rest ind

/-- Serialization of an array's element list (helper of `DataItem.print`). -/
def printElems : List DataItem → Bool → String
  | [], _ => ""
  | [t], ind => t.print ind
  | t :: rest, ind => t.print ind ++ (if ind then ", " else ",") ++ printElems rest ind

end

/-- The value handle of `json_item.cpp`: a pointer to a node (`none` models
the null pointer, "uninitialized/invalid") and the ownership flag
`m_deletable` ("owns this node", spec section 3). -/
structure JsonItem where
  m_content : Option DataItem
  m_deletable : Bool

/-- The default constructor `JsonItem::JsonItem()` (json_item.cpp lines
28-32): null content, deletable. -/
def JsonItem.init : JsonItem := ⟨none, true⟩

/-- The copy constructor `JsonItem::JsonItem(const JsonItem&)`
(json_item.cpp lines 39-42): `m_content = otherItem.m_content->copy()`
with no null guard -- `none` models the null-pointer dereference when the
source holds no content.  The `m_deletable` flag is not assigned in the
shown code; per the spec ("Copy-construct from another handle: always
deep-copies (owns = true)", section 4.2) the member default `true` is
modelled. -/
def JsonItem.copyConstruct (other : JsonItem) : Option JsonItem :=
  match other.m_content with
  | none => none
  | some c => some ⟨some c.copy, true⟩

/-- The constructor `JsonItem::JsonItem(DataItem*, const bool copy)`
(json_item.cpp lines 49-63).  With `copy = true` a non-null input is
deep-copied (the members keep their defaults when the input is null,
modelled from the spec as an invalid owning handle); with `copy = false`
the pointer is wrapped as a non-owning view (`m_deletable = false`). -/
def JsonItem.fromDataItem (dataItem : Option DataItem) (copy : Bool) : JsonItem :=
  if copy then
    match dataItem with
    | none => ⟨none, true⟩
    | some d => ⟨some d.copy, true⟩
  else ⟨dataItem, false⟩

/-- The constructor `JsonItem::JsonItem(const std::string&)`
(json_item.cpp lines 104-108): a fresh string scalar. -/
def JsonItem.fromString (value : String) : JsonItem :=
  ⟨some (DataItem.value (DataValue.strVal value)), true⟩

/-- The constructor `JsonItem::JsonItem(const int)` (json_item.cpp lines
115-119): a fresh integer scalar. -/
def JsonItem.fromInt (value : Int) : JsonItem :=
  ⟨some (DataItem.value (DataValue.intVal value)), true⟩

/-- The constructor `JsonItem::JsonItem(const float)` (json_item.cpp lines
126-130): a fresh floating-point scalar. -/
def JsonItem.fromFloat (value : Rat) : JsonItem :=
  ⟨some (DataItem.value (DataValue.floatVal value)), true⟩

/-- `JsonItem::clear()` (json_item.cpp lines 657-665): only when the
content is non-null and the handle owns it, the content is destroyed and
the pointer reset; otherwise nothing at all happens. -/
def JsonItem.clear (h : JsonItem) : JsonItem :=
  match h.m_content with
  | none => h
  | some _ => if h.m_deletable then ⟨none, h.m_deletable⟩ else h

/-- `JsonItem::getItemContent()` (json_item.cpp lines 348-352). -/
def JsonItem.getItemContent (h : JsonItem) : Option DataItem := h.m_content

/-- Modelled from the spec: the outcome of one run of the parser
collaborator on one input -- "parse(rawText, traceEnabled) -> (success,
errorMessage)" plus the output tree handed over on success (spec
section 6). -/
structure ParserOutcome where
  success : Bool
  errorMessage : String
  output : Option DataItem

/-- `JsonItem::parse` (json_item.cpp lines 150-172): on a parser failure
the pair `(false, errorMessage)` is returned and the handle is left
untouched; on success the prior content is cleared, the parser's output
tree is installed, and `(true, "")` is returned. -/
def JsonItem.parse (h : JsonItem) (parser : ParserOutcome) : (Bool × String) × JsonItem :=
  if parser.success = false then ((false, parser.errorMessage), h)
  else
    let h1 := h.clear
    ((true, ""), ⟨parser.output, h1.m_deletable⟩)

/-- `JsonItem::operator=` (json_item.cpp lines 181-191): behind the
self-assignment guard (`sameObject` models `this == &other`), `clear()`
then `m_content = other.m_content->copy()` with no null guard -- `none`
models the null-pointer dereference when the right-hand handle holds no
content.  `m_deletable` is not assigned. -/
def JsonItem.assign (a : JsonItem) (other : JsonItem) (sameObject : Bool) : Option JsonItem :=
  if sameObject then some a
  else
    match other.m_content with
    | none => none
    | some c =>
        let a1 := a.clear
        some ⟨some c.copy, a1.m_deletable⟩

/-- `JsonItem::setValue(const std::string&)` (json_item.cpp lines 198-212):
auto-materializes a default scalar on null content, then writes through
`DataValue::setValue` when the content is a scalar, else fails. -/
def JsonItem.setValueStr (h : JsonItem) (value : String) : Bool × JsonItem :=
  let h1 : JsonItem :=
    match h.m_content with
    | none => ⟨some (DataItem.value DataValue.defaultScalar), h.m_deletable⟩
    | some _ => h
  match h1.m_content with
  | some (DataItem.value v) => (true, ⟨some (DataItem.value (v.setValueStr value)), h1.m_deletable⟩)
  | _ => (false, h1)

/-- `JsonItem::setValue(const int&)` (json_item.cpp lines 219-233). -/
def JsonItem.setValueInt (h : JsonItem) (value : Int) : Bool × JsonItem :=
  let h1 : JsonItem :=
    match h.m_content with
    | none => ⟨some (DataItem.value DataValue.defaultScalar), h.m_deletable⟩
    | some _ => h
  match h1.m_content with
  | some (DataItem.value v) => (true, ⟨some (DataItem.value (v.setValueInt value)), h1.m_deletable⟩)
  | _ => (false, h1)

/-- `JsonItem::setValue(const float&)` (json_item.cpp lines 240-254). -/
def JsonItem.setValueFloat (h : JsonItem) (value : Rat) : Bool × JsonItem :=
  let h1 : JsonItem :=
    match h.m_content with
    | none => ⟨some (DataItem.value DataValue.defaultScalar), h.m_deletable⟩
    | some _ => h
  match h1.m_content with
  | some (DataItem.value v) => (true, ⟨some (DataItem.value (v.setValueFloat value)), h1.m_deletable⟩)
  | _ => (false, h1)

/-- `JsonItem::insert(key, value, force)` (json_item.cpp lines 265-288):
fails on an invalid operand or an empty key before anything else;
auto-materializes an empty object on null content; forwards a deep copy of
the operand's content to `DataObject::insert` when the content is an
object, else fails. -/
def JsonItem.insert (h : JsonItem) (key : String) (value : JsonItem) (force : Bool) :
    Bool × JsonItem :=
  match value.getItemContent with
  | none => (false, h)
  | some vc =>
      if key = "" then (false, h)
      else
        let h1 : JsonItem :=
          match h.m_content with
          | none => ⟨some (DataItem.object []), h.m_deletable⟩
          | some _ => h
        match h1.m_content with
        | some (DataItem.object es) =>
            let r := DataObject.insert es key vc.copy force
            (r.1, ⟨some (DataItem.object r.2), h1.m_deletable⟩)
        | _ => (false, h1)

/-- `JsonItem::append(value)` (json_item.cpp lines 297-313): fails on an
invalid operand before anything else; auto-materializes an empty array on
null content; appends a deep copy of the operand's content when the
content is an array, else fails. -/
def JsonItem.append (h : JsonItem) (value : JsonItem) : Bool × JsonItem :=
  match value.getItemContent with
  | none => (false, h)
  | some vc =>
      let h1 : JsonItem :=
        match h.m_content with
        | none => ⟨some (DataItem.array []), h.m_deletable⟩
        | some _ => h
      match h1.m_content with
      | some (DataItem.array xs) =>
          let r := DataArray.append xs vc.copy
          (r.1, ⟨some (DataItem.array r.2), h1.m_deletable⟩)
      | _ => (false, h1)

/-- `JsonItem::replaceItem(index, value)` (json_item.cpp lines 323-342):
fails on an invalid operand before anything else; auto-materializes an
empty array on null content (even though the call then fails on the bounds
check); replaces the element in place with a deep copy of the operand's
content when the content is an array and the index is in bounds, else
fails. -/
def JsonItem.replaceItem (h : JsonItem) (index : Nat) (value : JsonItem) : Bool × JsonItem :=
  match value.getItemContent with
  | none => (false, h)
  | some vc =>
      let h1 : JsonItem :=
        match h.m_content with
        | none => ⟨some (DataItem.array []), h.m_deletable⟩
        | some _ => h
      match h1.m_content with
      | some (DataItem.array xs) =>
          if index < xs.length then
            (true, ⟨some (DataItem.array (xs.set index vc.copy)), h1.m_deletable⟩)
          else (false, h1)
      | _ => (false, h1)

/-- `JsonItem::operator[](const std::string)` (json_item.cpp lines
361-369): invalid handle on null content, else a deep-copying wrap of the
node-level key lookup. -/
def JsonItem.subscriptKey (h : JsonItem) (key : String) : JsonItem :=
  match h.m_content with
  | none => JsonItem.init
  | some c => JsonItem.fromDataItem (c.getKey key) true

/-- `JsonItem::operator[](const uint32_t)` (json_item.cpp lines 379-386):
invalid handle on null content, else a deep-copying wrap of the node-level
index lookup. -/
def JsonItem.subscriptIndex (h : JsonItem) (index : Nat) : JsonItem :=
  match h.m_content with
  | none => JsonItem.init
  | some c => JsonItem.fromDataItem (c.getIndex index) true

/-- `JsonItem::get(key, copy)` (json_item.cpp lines 396-404). -/
def JsonItem.getKey (h : JsonItem) (key : String) (copy : Bool) : JsonItem :=
  match h.m_content with
  | none => JsonItem.init
  | some c => JsonItem.fromDataItem (c.getKey key) copy

/-- `JsonItem::get(index, copy)` (json_item.cpp lines 414-422). -/
def JsonItem.getIndex (h : JsonItem) (index : Nat) (copy : Bool) : JsonItem :=
  match h.m_content with
  | none => JsonItem.init
  | some c => JsonItem.fromDataItem (c.getIndex index) copy

/-- `JsonItem::getString()` (json_item.cpp lines 429-441): the scalar's
string through `DataValue::toString` when the content is a scalar, else
the empty string. -/
def JsonItem.getString (h : JsonItem) : String :=
  match h.m_content with
  | none => ""
  | some c =>
      if c.getType = ItemType.valueType then
        match c.toValue with
        | some v => v.toString
        | none => ""
      else ""

/-- `JsonItem::getInt()` (json_item.cpp lines 448-460): after the null
content guard, the code reads `m_content->toValue()->getValueType()` with
no variant guard (in contrast to `getString`, which checks
`getType() == VALUE_TYPE` first): on an Object or an Array, `toValue()`
yields the null pointer and the read dereferences it -- `none` models that
undefined outcome, exactly as for the copy constructor's and
`operator=`'s unguarded dereference. -/
def JsonItem.getInt (h : JsonItem) : Option Int :=
  match h.m_content with
  | none => some 0
  | some c =>
      match c.toValue with
      | some v => some (if v.getValueType = ValueType.intType then v.toInt else 0)
      | none => none

/-- `JsonItem::getFloat()` (json_item.cpp lines 467-479): like
`JsonItem.getInt` -- unguarded `toValue()->getValueType()`, so `none` on
an Object or an Array. -/
def JsonItem.getFloat (h : JsonItem) : Option Rat :=
  match h.m_content with
  | none => some 0
  | some c =>
      match c.toValue with
      | some v => some (if v.getValueType = ValueType.floatType then v.toFloat else 0)
      | none => none

/-- `JsonItem::getSize()` (json_item.cpp lines 486-494). -/
def JsonItem.getSize (h : JsonItem) : Nat :=
  match h.m_content with
  | none => 0
  | some c => c.getSize

/-- `JsonItem::getKeys()` (json_item.cpp lines 501-516). -/
def JsonItem.getKeys (h : JsonItem) : List String :=
  match h.m_content with
  | none => []
  | some c =>
      match c with
      | DataItem.object es => DataObject.getKeys es
      | _ => []

/-- `JsonItem::contains(key)` (json_item.cpp lines 525-539). -/
def JsonItem.contains (h : JsonItem) (key : String) : Bool :=
  match h.m_content with
  | none => false
  | some c =>
      match c with
      | DataItem.object es => DataObject.containsKey es key
      | _ => false

/-- `JsonItem::isValid()` (json_item.cpp lines 546-552). -/
def JsonItem.isValid (h : JsonItem) : Bool := h.m_content.isSome

/-- `JsonItem::isObject()` (json_item.cpp lines 559-570). -/
def JsonItem.isObject (h : JsonItem) : Bool :=
  match h.m_content with
  | none => false
  | some c => c.getType = ItemType.objectType

/-- `JsonItem::isArray()` (json_item.cpp lines 577-588). -/
def JsonItem.isArray (h : JsonItem) : Bool :=
  match h.m_content with
  | none => false
  | some c => c.getType = ItemType.arrayType

/-- `JsonItem::isValue()` (json_item.cpp lines 595-606). -/
def JsonItem.isValue (h : JsonItem) : Bool :=
  match h.m_content with
  | none => false
  | some c => c.getType = ItemType.valueType

/-- `JsonItem::remove(key)` (json_item.cpp lines 615-623): forwards to the
node-level removal when the content is non-null. -/
def JsonItem.removeKey (h : JsonItem) (key : String) : Bool × JsonItem :=
  match h.m_content with
  | none => (false, h)
  | some c =>
      let r := c.removeKey key
      (r.1, ⟨some r.2, h.m_deletable⟩)

/-- `JsonItem::remove(index)` (json_item.cpp lines 632-639). -/
def JsonItem.removeIdx (h : JsonItem) (index : Nat) : Bool × JsonItem :=
  match h.m_content with
  | none => (false, h)
  | some c =>
      let r := c.removeIdx index
      (r.1, ⟨some r.2, h.m_deletable⟩)

/-- `JsonItem::print(indent)` (json_item.cpp lines 646-652): the node's
rendering, or the empty string on null content. -/
def JsonItem.print (h : JsonItem) (indent : Bool) : String :=
  match h.m_content with
  | none => ""
  | some c => c.print indent

/-- A Value Node tree in which every node carries the identity of the heap
cell holding it.  The labelled model makes the spec's ownership reading of
`DataItem::copy()` ("result is a fully independent owned tree", section
4.1, and "No node may appear as a child of two parents", section 3)
expressible: two trees are independent when their identity sets are
disjoint, so a write at a node of one cannot be a write at a node of the
other. -/
inductive LTree where
  | lvalue (id : Nat) (v : DataValue)
  | lobject (id : Nat) (entries : List (String × LTree))
  | larray (id : Nat) (items : List LTree)

mutual

/-- The identities of all nodes of a labelled tree. -/
def LTree.ids : LTree → List Nat
  | .lvalue i _ => [i]
  | .lobject i es => i :: idsEntries es
  | .larray i xs => i :: idsList xs

/-- Identities of an entry list (helper of `LTree.ids`). -/
def idsEntries : List (String × LTree) → List Nat
  | [] => []
  | (_, t) :: rest => t.ids ++ idsEntries rest

/-- Identities of an element list (helper of `LTree.ids`). -/
def idsList : List LTree → List Nat
  | [] => []
  | t :: rest => t.ids ++ idsList rest

end

mutual

/-- The value a labelled tree represents, identities forgotten. -/
def LTree.strip : LTree → DataItem
  | .lvalue _ v => .value v
  | .lobject _ es => .object (stripEntries es)
  | .larray _ xs => .array (stripList xs)

/-- Stripping of an entry list (helper of `LTree.strip`). -/
def stripEntries : List (String × LTree) → List (String × DataItem)
  | [] => []
  | (k, t) :: rest => (k, t.strip) :: stripEntries rest

/-- Stripping of an element list (helper of `LTree.strip`). -/
def stripList : List LTree → List DataItem
  | [] => []
  | t :: rest => t.strip :: stripList rest

end

mutual

/-- `DataItem::copy()` in the labelled model: the copy rebuilds every node
in a freshly allocated cell.  `n` is the allocator's counter: every
identity below `n` is in use, the copy only takes identities at `n` and
above and returns the advanced counter. -/
def LTree.copyFresh : LTree → Nat → LTree × Nat
  | .lvalue _ v, n => (.lvalue n v, n + 1)
  | .lobject _ es, n =>
      let r := copyFreshEntries es (n + 1)
      (.lobject n r.1, r.2)
  | .larray _ xs, n =>
      let r := copyFreshList xs (n + 1)
      (.larray n r.1, r.2)

/-- Fresh copy of an entry list (helper of `LTree.copyFresh`). -/
def copyFreshEntries : List (String × LTree) → Nat → List (String × LTree) × Nat
  | [], n => ([], n)
  | (k, t) :: rest, n =>
      let r1 := LTree.copyFresh t n
      let r2 := copyFreshEntries rest r1.2
      ((k, r1.1) :: r2.1, r2.2)

/-- Fresh copy of an element list (helper of `LTree.copyFresh`). -/
def copyFreshList : List LTree → Nat → List LTree × Nat
  | [], n => ([], n)
  | t :: rest, n =>
      let r1 := LTree.copyFresh t n
      let r2 := copyFreshList rest r1.2
      (r1.1 :: r2.1, r2.2)

end

mutual

/-- A structural mutation of the tree owned by a handle: the node stored in
the cell with identity `target` is rewritten by `f`.  Every mutator of the
handle (insert, append, replaceItem, setValue, remove) is a write of this
shape at a node of the mutated handle's own tree. -/
def LTree.updateAt (target : Nat) (f : LTree → LTree) : LTree → LTree
  | .lvalue i v => if i = target then f (.lvalue i v) else .lvalue i v
  | .lobject i es =>
      if i = target then f (.lobject i es)
      else .lobject i (updateAtEntries target f es)
  | .larray i xs =>
      if i = target then f (.larray i xs)
      else .larray i (updateAtList target f xs)

/-- Update inside an entry list (helper of `LTree.updateAt`). -/
def updateAtEntries (target : Nat) (f : LTree → LTree) :
    List (String × LTree) → List (String × LTree)
  | [] => []
  | (k, t) :: rest => (k, t.updateAt target f) :: updateAtEntries target f rest

/-- Update inside an element list (helper of `LTree.updateAt`). -/
def updateAtList (target : Nat) (f : LTree → LTree) : List LTree → List LTree
  | [] => []
  | t :: rest => t.updateAt target f :: updateAtList target f rest

end

mutual

/-- The fresh copy advances the allocator and takes only identities in
`[n, result counter)`. -/
theorem copyFresh_bounds : ∀ (t : LTree) (n : Nat),
    n ≤ (LTree.copyFresh t n).2 ∧
      ∀ i ∈ (LTree.copyFresh t n).1.ids, n ≤ i ∧ i < (LTree.copyFresh t n).2
  | .lvalue _ v, n => by
      simp [LTree.copyFresh, LTree.ids]
  | .lobject _ es, n => by
      have h := copyFreshEntries_bounds es (n + 1)
      simp only [LTree.copyFresh, LTree.ids, List.mem_cons]
      refine ⟨by omega, ?_⟩
      rintro i (rfl | hi)
      · omega
      · have := h.2 i hi
        omega
  | .larray _ xs, n => by
      have h := copyFreshList_bounds xs (n + 1)
      simp only [LTree.copyFresh, LTree.ids, List.mem_cons]
      refine ⟨by omega, ?_⟩
      rintro i (rfl | hi)
      · omega
      · have := h.2 i hi
        omega

/-- Allocator bounds for entry lists (helper of `copyFresh_bounds`). -/
theorem copyFreshEntries_bounds : ∀ (es : List (String × LTree)) (n : Nat),
    n ≤ (copyFreshEntries es n).2 ∧
      ∀ i ∈ idsEntries (copyFreshEntries es n).1, n ≤ i ∧ i < (copyFreshEntries es n).2
  | [], n => by simp [copyFreshEntries, idsEntries]
  | (k, t) :: rest, n => by
      have h1 := copyFresh_bounds t n
      have h2 := copyFreshEntries_bounds rest (LTree.copyFresh t n).2
      simp only [copyFreshEntries, idsEntries, List.mem_append]
      refine ⟨by omega, ?_⟩
      rintro i (hi | hi)
      · have := h1.2 i hi
        omega
      · have := h2.2 i hi
        omega

/-- Allocator bounds for element lists (helper of `copyFresh_bounds`). -/
theorem copyFreshList_bounds : ∀ (xs : List LTree) (n : Nat),
    n ≤ (copyFreshList xs n).2 ∧
      ∀ i ∈ idsList (copyFreshList xs n).1, n ≤ i ∧ i < (copyFreshList xs n).2
  | [], n => by simp [copyFreshList, idsList]
  | t :: rest, n => by
      have h1 := copyFresh_bounds t n
      have h2 := copyFreshList_bounds rest (LTree.copyFresh t n).2
      simp only [copyFreshList, idsList, List.mem_append]
      refine ⟨by omega, ?_⟩
      rintro i (hi | hi)
      · have := h1.2 i hi
        omega
      · have := h2.2 i hi
        omega

end

mutual

/-- The fresh copy represents the same value as the original: a deep copy
is deep-equal. -/
theorem copyFresh_strip : ∀ (t : LTree) (n : Nat),
    (LTree.copyFresh t n).1.strip = t.strip
  | .lvalue _ _, _ => rfl
  | .lobject _ es, n => by
      simp only [LTree.copyFresh, LTree.strip]
      rw [copyFreshEntries_strip es (n + 1)]
  | .larray _ xs, n => by
      simp only [LTree.copyFresh, LTree.strip]
      rw [copyFreshList_strip xs (n + 1)]

/-- Value preservation for entry lists (helper of `copyFresh_strip`). -/
theorem copyFreshEntries_strip : ∀ (es : List (String × LTree)) (n : Nat),
    stripEntries (copyFreshEntries es n).1 = stripEntries es
  | [], _ => rfl
  | (k, t) :: rest, n => by
      simp only [copyFreshEntries, stripEntries]
      rw [copyFresh_strip t n, copyFreshEntries_strip rest (LTree.copyFresh t n).2]

/-- Value preservation for element lists (helper of `copyFresh_strip`). -/
theorem copyFreshList_strip : ∀ (xs : List LTree) (n : Nat),
    stripList (copyFreshList xs n).1 = stripList xs
  | [], _ => rfl
  | t :: rest, n => by
      simp only [copyFreshList, stripList]
      rw [copyFresh_strip t n, copyFreshList_strip rest (LTree.copyFresh t n).2]

end

mutual

/-- Frame property: a write at a cell the tree does not own leaves the
tree unchanged. -/
theorem updateAt_not_mem : ∀ (t : LTree) (target : Nat) (f : LTree → LTree),
    target ∉ t.ids → t.updateAt target f = t
  | .lvalue i v, target, f => by
      intro hmem
      have : i ≠ target := by simpa [LTree.ids, eq_comm] using hmem
      simp [LTree.updateAt, this]
  | .lobject i es, target, f => by
      intro hmem
      simp only [LTree.ids, List.mem_cons, not_or] at hmem
      rw [LTree.updateAt, if_neg (by omega), updateAtEntries_not_mem es target f hmem.2]
  | .larray i xs, target, f => by
      intro hmem
      simp only [LTree.ids, List.mem_cons, not_or] at hmem
      rw [LTree.updateAt, if_neg (by omega), updateAtList_not_mem xs target f hmem.2]

/-- Frame property for entry lists (helper of `updateAt_not_mem`). -/
theorem updateAtEntries_not_mem : ∀ (es : List (String × LTree)) (target : Nat)
    (f : LTree → LTree), target ∉ idsEntries es → updateAtEntries target f es = es
  | [], _, _ => by intro; rfl
  | (k, t) :: rest, target, f => by
      intro hmem
      simp only [idsEntries, List.mem_append, not_or] at hmem
      rw [updateAtEntries, updateAt_not_mem t target f hmem.1,
        updateAtEntries_not_mem rest target f hmem.2]

/-- Frame property for element lists (helper of `updateAt_not_mem`). -/
theorem updateAtList_not_mem : ∀ (xs : List LTree) (target : Nat)
    (f : LTree → LTree), target ∉ idsList xs → updateAtList target f xs = xs
  | [], _, _ => by intro; rfl
  | t :: rest, target, f => by
      intro hmem
      simp only [idsList, List.mem_append, not_or] at hmem
      rw [updateAtList, updateAt_not_mem t target f hmem.1,
        updateAtList_not_mem rest target f hmem.2]

end

/-- The `clear` of a handle never changes the ownership flag. -/
theorem JsonItem.clear_deletable (h : JsonItem) : h.clear.m_deletable = h.m_deletable := by
  unfold JsonItem.clear
  match h with
  | ⟨none, d⟩ => rfl
  | ⟨some c, d⟩ =>
      by_cases hd : d = true
      · simp [hd]
      · simp at hd
        simp [hd]

/-- Appending a fresh key makes it found, with the appended node. -/
theorem find_append_of_not_contains (es : List (String × DataItem)) (key : String)
    (v : DataItem) (hc : DataObject.containsKey es key = false) :
    (es ++ [(key, v)]).find? (fun e => e.1 == key) = some (key, v) := by
  induction es with
  | nil => simp
  | cons e rest ih =>
      simp only [DataObject.containsKey, List.any_cons, Bool.or_eq_false_iff] at hc
      simp only [List.cons_append, List.find?]
      rw [hc.1]
      exact ih hc.2

/-- A key once present stays present after appending an entry. -/
theorem contains_append (es : List (String × DataItem)) (key : String) (v : DataItem) :
    DataObject.containsKey (es ++ [(key, v)]) key = true := by
  simp [DataObject.containsKey]

/-- The forced overwrite stores the new node under the key: lookup after
the overwrite yields the new node. -/
theorem find_after_overwrite (es : List (String × DataItem)) (key : String)
    (v : DataItem) (hc : DataObject.containsKey es key = true) :
    (es.map (fun e => if e.1 == key then (e.1, v) else e)).find? (fun e => e.1 == key)
      = some (key, v) := by
  induction es with
  | nil => simp [DataObject.containsKey] at hc
  | cons e rest ih =>
      by_cases he : (e.1 == key) = true
      · have hkey : e.1 = key := by simpa using he
        rw [List.map_cons, if_pos he, List.find?_cons_of_pos _ (by simpa using he)]
        simp [hkey]
      · have hf : (e.1 == key) = false := by simpa using he
        simp only [DataObject.containsKey, List.any_cons, Bool.or_eq_true] at hc
        rcases hc with hc | hc
        · exact absurd hc he
        · rw [List.map_cons, if_neg (by simp [hf]), List.find?_cons_of_neg _ (by simp [hf])]
          exact ih hc

/-- Scenario harness for the array-bounds claim: `N` successive `append`
calls, conjoining their boolean results. -/
def JsonItem.appendAll (h : JsonItem) : List DataItem → Bool × JsonItem
  | [] => (true, h)
  | d :: rest =>
      let r := h.append ⟨some d, true⟩
      let r2 := r.2.appendAll rest
      (r.1 && r2.1, r2.2)

/-- Appending a list of valid items onto an array handle succeeds and
concatenates. -/
theorem appendAll_from_array (ds : List DataItem) :
    ∀ (xs : List DataItem) (flag : Bool),
    JsonItem.appendAll ⟨some (DataItem.array xs), flag⟩ ds
      = (true, ⟨some (DataItem.array (xs ++ ds)), flag⟩) := by
  induction ds with
  | nil => intro xs flag; simp [JsonItem.appendAll]
  | cons d rest ih =>
      intro xs flag
      rw [JsonItem.appendAll]
      simp only [JsonItem.append, JsonItem.getItemContent, DataArray.append,
        DataItem.copy_eq]
      rw [ih (xs ++ [d]) flag]
      simp

/-- Building from the default handle by `N >= 1` successful appends yields
an owned array of exactly the appended items. -/
theorem appendAll_init (ds : List DataItem) (hne : ds ≠ []) :
    JsonItem.appendAll JsonItem.init ds = (true, ⟨some (DataItem.array ds), true⟩) := by
  match ds, hne with
  | d :: rest, _ =>
      rw [JsonItem.appendAll]
      simp only [JsonItem.init, JsonItem.append, JsonItem.getItemContent,
        DataArray.append, DataItem.copy_eq, List.nil_append]
      rw [appendAll_from_array rest [d] true]
      simp

/-- A wrap of a null node pointer is an invalid handle, whatever the copy
flag. -/
theorem fromDataItem_none_invalid (copy : Bool) :
    (JsonItem.fromDataItem none copy).isValid = false := by
  cases copy <;> rfl

/-- C3: every lookup -- `operator[](key)`, `operator[](index)`,
`get(key, copy)`, `get(index, copy)` -- returns an invalid handle
(`isValid = false`), not an error, whenever the parent content is absent,
the key or index does not exist, or the parent's variant does not match
the lookup; the hypothesis `m_content.bind ... = none` is exactly the
disjunction of those three cases. -/
theorem C3_lookup_invalid (h : JsonItem) (key : String) (index : Nat) (copy : Bool) :
    (h.m_content.bind (fun c => c.getKey key) = none →
      (h.subscriptKey key).isValid = false ∧ (h.getKey key copy).isValid = false) ∧
    (h.m_content.bind (fun c => c.getIndex index) = none →
      (h.subscriptIndex index).isValid = false ∧ (h.getIndex index copy).isValid = false) := by
  cases hh : h.m_content with
  | none =>
      refine ⟨fun _ => ⟨?_, ?_⟩, fun _ => ⟨?_, ?_⟩⟩ <;>
        simp [JsonItem.subscriptKey, JsonItem.subscriptIndex, JsonItem.getKey,
          JsonItem.getIndex, hh, JsonItem.init, JsonItem.isValid]
  | some c =>
      refine ⟨fun hk => ?_, fun hi => ?_⟩
      · simp only [Option.some_bind] at hk
        exact ⟨by simp [JsonItem.subscriptKey, hh, hk, fromDataItem_none_invalid],
          by simp [JsonItem.getKey, hh, hk, fromDataItem_none_invalid]⟩
      · simp only [Option.some_bind] at hi
        exact ⟨by simp [JsonItem.subscriptIndex, hh, hi, fromDataItem_none_invalid],
          by simp [JsonItem.getIndex, hh, hi, fromDataItem_none_invalid]⟩

/-- Witness for C3 at a concrete array-typed handle: a key lookup and an
out-of-bounds index lookup both yield invalid handles. -/
theorem C3_lookup_invalid_witness :
    ((⟨some (DataItem.array [DataItem.value (DataValue.intVal 5)]), true⟩ : JsonItem).m_content.bind
        (fun c => c.getKey "k") = none) ∧
    ((⟨some (DataItem.array [DataItem.value (DataValue.intVal 5)]), true⟩ : JsonItem).m_content.bind
        (fun c => c.getIndex 3) = none) ∧
    (((⟨some (DataItem.array [DataItem.value (DataValue.intVal 5)]), true⟩ : JsonItem).subscriptKey "k").isValid = false ∧
      ((⟨some (DataItem.array [DataItem.value (DataValue.intVal 5)]), true⟩ : JsonItem).getKey "k" false).isValid = false) ∧
    (((⟨some (DataItem.array [DataItem.value (DataValue.intVal 5)]), true⟩ : JsonItem).subscriptIndex 3).isValid = false ∧
      ((⟨some (DataItem.array [DataItem.value (DataValue.intVal 5)]), true⟩ : JsonItem).getIndex 3 false).isValid = false) :=
  ⟨rfl, rfl,
    (C3_lookup_invalid ⟨some (DataItem.array [DataItem.value (DataValue.intVal 5)]), true⟩ "k" 3 false).1 rfl,
    (C3_lookup_invalid ⟨some (DataItem.array [DataItem.value (DataValue.intVal 5)]), true⟩ "k" 3 false).2 rfl⟩

/-- C4: evaluation of the accessors at the claim's inputs.  `getString`
(guarded by `getType() == VALUE_TYPE`) does return the stored string on a
matching scalar and the empty string on every other content; `getInt` and
`getFloat` return the stored value on a matching scalar and the defined
default 0 on a scalar of the other sub-kind and on absent content -- but
on an Object and on an Array they dereference the null pointer returned
by the unguarded `toValue()` (the undefined outcome `none`), where the
claim, the spec and the functions' own doc comments ("else 0") promise
the neutral default: the code, not the claim, is wrong there. -/
theorem C4_accessor_defaults_and_null_deref :
    (⟨some (DataItem.value (DataValue.strVal "hi")), true⟩ : JsonItem).getString = "hi" ∧
    (⟨some (DataItem.value (DataValue.intVal 9)), true⟩ : JsonItem).getInt = some 9 ∧
    (⟨some (DataItem.value (DataValue.floatVal 2)), true⟩ : JsonItem).getFloat = some 2 ∧
    (⟨some (DataItem.value (DataValue.intVal 9)), true⟩ : JsonItem).getString = "" ∧
    (⟨some (DataItem.value (DataValue.strVal "hi")), true⟩ : JsonItem).getInt = some 0 ∧
    (⟨some (DataItem.value (DataValue.strVal "hi")), true⟩ : JsonItem).getFloat = some 0 ∧
    JsonItem.init.getString = "" ∧
    JsonItem.init.getInt = some 0 ∧
    JsonItem.init.getFloat = some 0 ∧
    (⟨some (DataItem.object [("k", DataItem.value (DataValue.intVal 9))]), true⟩ : JsonItem).getString = "" ∧
    (⟨some (DataItem.array [DataItem.value (DataValue.intVal 9)]), true⟩ : JsonItem).getString = "" ∧
    (⟨some (DataItem.object [("k", DataItem.value (DataValue.intVal 9))]), true⟩ : JsonItem).getInt = none ∧
    (⟨some (DataItem.object [("k", DataItem.value (DataValue.intVal 9))]), true⟩ : JsonItem).getFloat = none ∧
    (⟨some (DataItem.array [DataItem.value (DataValue.intVal 9)]), true⟩ : JsonItem).getInt = none ∧
    (⟨some (DataItem.array [DataItem.value (DataValue.intVal 9)]), true⟩ : JsonItem).getFloat = none :=
  ⟨rfl, rfl, rfl, rfl, rfl, rfl, rfl, rfl, rfl, rfl, rfl, rfl, rfl, rfl, rfl⟩

/-- C6: a failed parse returns `(false, errorMessage)` and leaves the
handle's entire state unchanged; a successful parse returns `(true, "")`
and installs the parser's output tree after clearing the prior content. -/
theorem C6_parse_contract (h : JsonItem) (parser : ParserOutcome) :
    (parser.success = false → h.parse parser = ((false, parser.errorMessage), h)) ∧
    (parser.success = true →
      h.parse parser = ((true, ""), ⟨parser.output, h.clear.m_deletable⟩)) := by
  constructor <;> intro hs <;> simp [JsonItem.parse, hs]

/-- Witness for C6 at a concrete handle holding a string scalar, one
failing and one succeeding parser outcome. -/
theorem C6_parse_contract_witness :
    (⟨false, "err", none⟩ : ParserOutcome).success = false ∧
    (⟨true, "", some (DataItem.value (DataValue.intVal 1))⟩ : ParserOutcome).success = true ∧
    (JsonItem.fromString "old").parse ⟨false, "err", none⟩
      = ((false, "err"), JsonItem.fromString "old") ∧
    (JsonItem.fromString "old").parse ⟨true, "", some (DataItem.value (DataValue.intVal 1))⟩
      = ((true, ""), ⟨some (DataItem.value (DataValue.intVal 1)),
          (JsonItem.fromString "old").clear.m_deletable⟩) :=
  ⟨rfl, rfl,
    (C6_parse_contract (JsonItem.fromString "old") ⟨false, "err", none⟩).1 rfl,
    (C6_parse_contract (JsonItem.fromString "old")
      ⟨true, "", some (DataItem.value (DataValue.intVal 1))⟩).2 rfl⟩

/-- Counterexample to C7 as stated: assigning a valid handle to a
non-owning handle does NOT leave it in the owning state -- `operator=`
never assigns `m_deletable`, so the result keeps the flag `false` and its
destructor would not delete the newly installed copy. -/
theorem C7_nonowning_assign_cex :
    JsonItem.assign (JsonItem.fromDataItem (some (DataItem.value (DataValue.intVal 7))) false)
        (JsonItem.fromString "x") false
      = some ⟨some (DataItem.value (DataValue.strVal "x")), false⟩ ∧
    Option.map JsonItem.m_deletable
        (JsonItem.assign (JsonItem.fromDataItem (some (DataItem.value (DataValue.intVal 7))) false)
          (JsonItem.fromString "x") false)
      = some false :=
  ⟨rfl, rfl⟩

/-- C7 (amended): assignment from a handle with content clears the
left-hand handle, installs a deep copy of the right-hand content, and
preserves the left-hand ownership flag (an owning handle stays owning; a
non-owning one stays non-owning); self-assignment is a no-op. -/
theorem C7_assign_deep_copies (a b : JsonItem) (c : DataItem)
    (hb : b.m_content = some c) :
    a.assign b false = some ⟨some c, a.m_deletable⟩ ∧ a.assign a true = some a := by
  constructor
  · simp [JsonItem.assign, hb, DataItem.copy_eq, JsonItem.clear_deletable]
  · simp [JsonItem.assign]

/-- Witness for C7's amended theorem at concrete owning handles. -/
theorem C7_assign_deep_copies_witness :
    (JsonItem.fromInt 2).m_content = some (DataItem.value (DataValue.intVal 2)) ∧
    ((JsonItem.fromString "a").assign (JsonItem.fromInt 2) false
        = some ⟨some (DataItem.value (DataValue.intVal 2)), (JsonItem.fromString "a").m_deletable⟩ ∧
      (JsonItem.fromString "a").assign (JsonItem.fromString "a") true
        = some (JsonItem.fromString "a")) :=
  ⟨rfl, C7_assign_deep_copies (JsonItem.fromString "a") (JsonItem.fromInt 2)
    (DataItem.value (DataValue.intVal 2)) rfl⟩

/-- Counterexample to C8 as stated: `clear()` on a non-owning handle with
content is a complete no-op -- the pointer is not reset, so the handle
stays valid, contradicting "after calling clear() the handle is invalid
... for non-owning handles". -/
theorem C8_nonowning_clear_cex :
    (JsonItem.fromDataItem (some (DataItem.value (DataValue.intVal 1))) false).clear.isValid
      = true ∧
    (JsonItem.fromDataItem (some (DataItem.value (DataValue.intVal 1))) false).clear
      = ⟨some (DataItem.value (DataValue.intVal 1)), false⟩ :=
  ⟨rfl, rfl⟩

/-- C8 (amended): after `clear()` an owning handle, or one that already
held no content, is invalid -- `isValid` false, `getSize` 0, `print`
empty; a non-owning handle is left completely unchanged by `clear()` (its
content is neither destroyed nor detached). -/
theorem C8_clear_resets (h : JsonItem) :
    (h.m_deletable = true ∨ h.m_content = none →
      h.clear.isValid = false ∧ h.clear.getSize = 0 ∧
      h.clear.print false = "" ∧ h.clear.print true = "") ∧
    (h.m_deletable = false → h.clear = h) := by
  match h with
  | ⟨none, d⟩ =>
      exact ⟨fun _ => ⟨rfl, rfl, rfl, rfl⟩, fun _ => rfl⟩
  | ⟨some c, d⟩ =>
      constructor
      · rintro (hd | hnone)
        · simp only at hd
          subst hd
          exact ⟨rfl, rfl, rfl, rfl⟩
        · exact absurd hnone (by simp)
      · intro hd
        simp only at hd
        simp [JsonItem.clear, hd]

/-- Witness for C8's amended theorem: an owning scalar handle is reset to
invalid; a concrete non-owning handle is untouched. -/
theorem C8_clear_resets_witness :
    (JsonItem.fromString "x").m_deletable = true ∧
    ((JsonItem.fromString "x").clear.isValid = false ∧
      (JsonItem.fromString "x").clear.getSize = 0 ∧
      (JsonItem.fromString "x").clear.print false = "" ∧
      (JsonItem.fromString "x").clear.print true = "") ∧
    (JsonItem.fromDataItem (some (DataItem.value (DataValue.intVal 1))) false).m_deletable
      = false ∧
    (JsonItem.fromDataItem (some (DataItem.value (DataValue.intVal 1))) false).clear
      = JsonItem.fromDataItem (some (DataItem.value (DataValue.intVal 1))) false :=
  ⟨rfl, (C8_clear_resets (JsonItem.fromString "x")).1 (Or.inl rfl), rfl,
    (C8_clear_resets (JsonItem.fromDataItem (some (DataItem.value (DataValue.intVal 1))) false)).2 rfl⟩

/-- C9: the copy constructor and `operator=` dereference the source's
content with no null guard -- modelled as `none` -- so both have the
unstated precondition that the source is valid; the handle's other
operations guard the null-content case and return defined neutral
results on the very same invalid handle. -/
theorem C9_null_source_deref (h src : JsonItem) (key : String)
    (hsrc : src.m_content = none) :
    JsonItem.copyConstruct src = none ∧
    h.assign src false = none ∧
    src.isValid = false ∧
    src.getString = "" ∧
    src.getInt = some 0 ∧
    src.getSize = 0 ∧
    src.print false = "" ∧
    (src.subscriptKey key).isValid = false ∧
    src.removeKey key = (false, src) := by
  refine ⟨?_, ?_, ?_, ?_, ?_, ?_, ?_, ?_, ?_⟩ <;>
    simp [JsonItem.copyConstruct, JsonItem.assign, JsonItem.isValid, JsonItem.getString,
      JsonItem.getInt, JsonItem.getSize, JsonItem.print, JsonItem.subscriptKey,
      JsonItem.removeKey, JsonItem.init, hsrc]

/-- Witness for C9 at the default-constructed (invalid) handle as source
and a concrete valid handle as destination. -/
theorem C9_null_source_deref_witness :
    JsonItem.init.m_content = none ∧
    (JsonItem.copyConstruct JsonItem.init = none ∧
      (JsonItem.fromInt 3).assign JsonItem.init false = none ∧
      JsonItem.init.isValid = false ∧
      JsonItem.init.getString = "" ∧
      JsonItem.init.getInt = some 0 ∧
      JsonItem.init.getSize = 0 ∧
      JsonItem.init.print false = "" ∧
      (JsonItem.init.subscriptKey "k").isValid = false ∧
      JsonItem.init.removeKey "k" = (false, JsonItem.init)) :=
  ⟨rfl, C9_null_source_deref (JsonItem.fromInt 3) JsonItem.init "k" rfl⟩

/-- C10: `replaceItem` on an invalid handle with a valid operand returns
false yet has already materialized an empty array as the new content (the
failing call is not atomic: afterwards `isArray` holds and `getSize` is
0); by contrast `insert`, `append` and `replaceItem` with an invalid
operand return false before materializing anything, leaving the handle
exactly as it was. -/
theorem C10_replace_materializes (h w inv : JsonItem) (index : Nat) (key : String)
    (force : Bool) (wc : DataItem)
    (hh : h.m_content = none) (hw : w.m_content = some wc)
    (hinv : inv.m_content = none) :
    h.replaceItem index w = (false, ⟨some (DataItem.array []), h.m_deletable⟩) ∧
    (h.replaceItem index w).2.isArray = true ∧
    (h.replaceItem index w).2.getSize = 0 ∧
    h.insert key inv force = (false, h) ∧
    h.append inv = (false, h) ∧
    h.replaceItem index inv = (false, h) := by
  refine ⟨?_, ?_, ?_, ?_, ?_, ?_⟩ <;>
    simp [JsonItem.replaceItem, JsonItem.insert, JsonItem.append, JsonItem.getItemContent,
      hh, hw, hinv, JsonItem.isArray, JsonItem.getSize, DataItem.getType, DataItem.getSize]

/-- Witness for C10 at the default-constructed handle, a concrete valid
operand and a concrete invalid operand. -/
theorem C10_replace_materializes_witness :
    JsonItem.init.m_content = none ∧
    (JsonItem.fromString "w").m_content = some (DataItem.value (DataValue.strVal "w")) ∧
    (JsonItem.init.replaceItem 0 (JsonItem.fromString "w")
        = (false, ⟨some (DataItem.array []), JsonItem.init.m_deletable⟩) ∧
      (JsonItem.init.replaceItem 0 (JsonItem.fromString "w")).2.isArray = true ∧
      (JsonItem.init.replaceItem 0 (JsonItem.fromString "w")).2.getSize = 0 ∧
      JsonItem.init.insert "k" JsonItem.init false = (false, JsonItem.init) ∧
      JsonItem.init.append JsonItem.init = (false, JsonItem.init) ∧
      JsonItem.init.replaceItem 0 JsonItem.init = (false, JsonItem.init)) :=
  ⟨rfl, rfl, C10_replace_materializes JsonItem.init (JsonItem.fromString "w") JsonItem.init
    0 "k" false (DataItem.value (DataValue.strVal "w")) rfl rfl rfl⟩

/-- C2: on an object-typed handle, after `insert(key, x)` succeeds, a
second `insert(key, y, force := false)` returns false and leaves the
handle unchanged with the value at the key still deep-equal to `x`'s
content, while `insert(key, y, force := true)` returns true and the value
at the key becomes deep-equal to `y`'s content. -/
theorem C2_insert_overwrite (h x y h1 : JsonItem) (key : String)
    (es : List (String × DataItem)) (xc yc : DataItem)
    (hh : h.m_content = some (DataItem.object es))
    (hx : x.m_content = some xc) (hy : y.m_content = some yc)
    (hkey : key ≠ "")
    (hfirst : h.insert key x false = (true, h1)) :
    h1.insert key y false = (false, h1) ∧
    (h1.getKey key true).m_content = some xc ∧
    (h1.insert key y true).1 = true ∧
    ((h1.insert key y true).2.getKey key true).m_content = some yc := by
  simp only [JsonItem.insert, JsonItem.getItemContent, hx, hh, DataItem.copy_eq] at hfirst
  rw [if_neg hkey] at hfirst
  by_cases hc : DataObject.containsKey es key = true
  · simp [DataObject.insert, hc] at hfirst
  · have hcf : DataObject.containsKey es key = false := by simpa using hc
    simp only [DataObject.insert, hcf, Bool.false_eq_true, if_false, Prod.mk.injEq,
      true_and] at hfirst
    have h1eq : h1 = ⟨some (DataItem.object (es ++ [(key, xc)])), h.m_deletable⟩ :=
      hfirst.symm
    subst h1eq
    refine ⟨?_, ?_, ?_, ?_⟩
    · simp only [JsonItem.insert, JsonItem.getItemContent, hy]
      rw [if_neg hkey]
      simp [DataObject.insert, contains_append]
    · simp only [JsonItem.getKey, DataItem.getKey]
      rw [find_append_of_not_contains es key xc hcf]
      simp [JsonItem.fromDataItem, DataItem.copy_eq]
    · simp only [JsonItem.insert, JsonItem.getItemContent, hy]
      rw [if_neg hkey]
      simp [DataObject.insert, contains_append]
    · simp only [JsonItem.insert, JsonItem.getItemContent, hy]
      rw [if_neg hkey]
      simp only [DataObject.insert, contains_append, if_true, DataItem.copy_eq]
      simp only [JsonItem.getKey, DataItem.getKey]
      rw [find_after_overwrite (es ++ [(key, xc)]) key yc (contains_append es key xc)]
      simp [JsonItem.fromDataItem, DataItem.copy_eq]

/-- Witness for C2: inserting 1 under "a" into an empty object handle,
then re-inserting 2 without and with force. -/
theorem C2_insert_overwrite_witness :
    ((⟨some (DataItem.object []), true⟩ : JsonItem).m_content = some (DataItem.object [])) ∧
    (JsonItem.fromInt 1).m_content = some (DataItem.value (DataValue.intVal 1)) ∧
    (JsonItem.fromInt 2).m_content = some (DataItem.value (DataValue.intVal 2)) ∧
    ("a" : String) ≠ "" ∧
    (⟨some (DataItem.object []), true⟩ : JsonItem).insert "a" (JsonItem.fromInt 1) false
      = (true, ⟨some (DataItem.object [("a", DataItem.value (DataValue.intVal 1))]), true⟩) ∧
    ((⟨some (DataItem.object [("a", DataItem.value (DataValue.intVal 1))]), true⟩ : JsonItem).insert
        "a" (JsonItem.fromInt 2) false
      = (false, ⟨some (DataItem.object [("a", DataItem.value (DataValue.intVal 1))]), true⟩) ∧
    ((⟨some (DataItem.object [("a", DataItem.value (DataValue.intVal 1))]), true⟩ : JsonItem).getKey
        "a" true).m_content = some (DataItem.value (DataValue.intVal 1)) ∧
    ((⟨some (DataItem.object [("a", DataItem.value (DataValue.intVal 1))]), true⟩ : JsonItem).insert
        "a" (JsonItem.fromInt 2) true).1 = true ∧
    (((⟨some (DataItem.object [("a", DataItem.value (DataValue.intVal 1))]), true⟩ : JsonItem).insert
          "a" (JsonItem.fromInt 2) true).2.getKey "a" true).m_content
      = some (DataItem.value (DataValue.intVal 2))) :=
  ⟨rfl, rfl, rfl, by decide, rfl,
    C2_insert_overwrite ⟨some (DataItem.object []), true⟩ (JsonItem.fromInt 1)
      (JsonItem.fromInt 2)
      ⟨some (DataItem.object [("a", DataItem.value (DataValue.intVal 1))]), true⟩ "a" []
      (DataItem.value (DataValue.intVal 1)) (DataItem.value (DataValue.intVal 2))
      rfl rfl rfl (by decide) rfl⟩

/-- C5: building an array by `N >= 1` successful `append` calls, then
`replaceItem(N, w)` with valid `w` fails and leaves the handle (size and
elements) unchanged, while `replaceItem(N-1, w)` succeeds and replaces
exactly the last element with a deep copy of `w`'s content. -/
theorem C5_array_replace_bounds (ds : List DataItem) (w : JsonItem) (wc : DataItem)
    (hw : w.m_content = some wc) (hne : ds ≠ []) :
    JsonItem.appendAll JsonItem.init ds = (true, ⟨some (DataItem.array ds), true⟩) ∧
    (JsonItem.appendAll JsonItem.init ds).2.replaceItem ds.length w
      = (false, (JsonItem.appendAll JsonItem.init ds).2) ∧
    ((JsonItem.appendAll JsonItem.init ds).2.replaceItem (ds.length - 1) w).1 = true ∧
    ((JsonItem.appendAll JsonItem.init ds).2.replaceItem (ds.length - 1) w).2.m_content
      = some (DataItem.array (ds.set (ds.length - 1) wc)) := by
  have hbuild := appendAll_init ds hne
  have hlt : ds.length - 1 < ds.length :=
    Nat.sub_lt (List.length_pos.mpr hne) Nat.one_pos
  refine ⟨hbuild, ?_, ?_, ?_⟩ <;>
    rw [hbuild] <;>
    simp [JsonItem.replaceItem, JsonItem.getItemContent, hw, DataItem.copy_eq, hlt]

/-- Witness for C5 with two appended integer scalars and a string-scalar
replacement operand. -/
theorem C5_array_replace_bounds_witness :
    (JsonItem.fromString "w").m_content = some (DataItem.value (DataValue.strVal "w")) ∧
    ([DataItem.value (DataValue.intVal 1), DataItem.value (DataValue.intVal 2)] : List DataItem) ≠ [] ∧
    (JsonItem.appendAll JsonItem.init
        [DataItem.value (DataValue.intVal 1), DataItem.value (DataValue.intVal 2)]
      = (true, ⟨some (DataItem.array
          [DataItem.value (DataValue.intVal 1), DataItem.value (DataValue.intVal 2)]), true⟩) ∧
    (JsonItem.appendAll JsonItem.init
        [DataItem.value (DataValue.intVal 1), DataItem.value (DataValue.intVal 2)]).2.replaceItem
        [DataItem.value (DataValue.intVal 1), DataItem.value (DataValue.intVal 2)].length
        (JsonItem.fromString "w")
      = (false, (JsonItem.appendAll JsonItem.init
          [DataItem.value (DataValue.intVal 1), DataItem.value (DataValue.intVal 2)]).2) ∧
    ((JsonItem.appendAll JsonItem.init
        [DataItem.value (DataValue.intVal 1), DataItem.value (DataValue.intVal 2)]).2.replaceItem
        ([DataItem.value (DataValue.intVal 1), DataItem.value (DataValue.intVal 2)].length - 1)
        (JsonItem.fromString "w")).1 = true ∧
    ((JsonItem.appendAll JsonItem.init
        [DataItem.value (DataValue.intVal 1), DataItem.value (DataValue.intVal 2)]).2.replaceItem
        ([DataItem.value (DataValue.intVal 1), DataItem.value (DataValue.intVal 2)].length - 1)
        (JsonItem.fromString "w")).2.m_content
      = some (DataItem.array
          ([DataItem.value (DataValue.intVal 1), DataItem.value (DataValue.intVal 2)].set
            ([DataItem.value (DataValue.intVal 1), DataItem.value (DataValue.intVal 2)].length - 1)
            (DataItem.value (DataValue.strVal "w"))))) :=
  ⟨rfl, List.cons_ne_nil _ _,
    C5_array_replace_bounds
      [DataItem.value (DataValue.intVal 1), DataItem.value (DataValue.intVal 2)]
      (JsonItem.fromString "w") (DataItem.value (DataValue.strVal "w"))
      rfl (List.cons_ne_nil _ _)⟩

/-- C1: copy-constructing a handle T2 from a valid handle T yields an
owning handle whose content is deep-equal to T's; in the labelled model
the deep copy occupies only freshly allocated cells, so its identity set
is disjoint from the original's, and therefore every structural write at
a node owned by the copy leaves the original tree unchanged and every
write at a node owned by the original leaves the copy unchanged. -/
theorem C1_deep_copy_independence (T : JsonItem) (c : DataItem) (t : LTree) (n : Nat)
    (hT : T.m_content = some c) (hn : ∀ i ∈ t.ids, i < n) :
    JsonItem.copyConstruct T = some ⟨some c, true⟩ ∧
    (LTree.copyFresh t n).1.strip = t.strip ∧
    (∀ (f : LTree → LTree) (i : Nat), i ∈ (LTree.copyFresh t n).1.ids →
      t.updateAt i f = t) ∧
    (∀ (f : LTree → LTree) (i : Nat), i ∈ t.ids →
      (LTree.copyFresh t n).1.updateAt i f = (LTree.copyFresh t n).1) := by
  refine ⟨?_, copyFresh_strip t n, ?_, ?_⟩
  · simp [JsonItem.copyConstruct, hT, DataItem.copy_eq]
  · intro f i hi
    have hbound := (copyFresh_bounds t n).2 i hi
    apply updateAt_not_mem
    intro hmem
    exact absurd (hn i hmem) (by omega)
  · intro f i hi
    apply updateAt_not_mem
    intro hmem
    have hbound := (copyFresh_bounds t n).2 i hmem
    exact absurd (hn i hi) (by omega)

/-- Witness for C1 at a concrete one-entry object tree labelled with
identities 0 and 1, allocator counter 2. -/
theorem C1_deep_copy_independence_witness :
    ((⟨some (DataItem.object [("a", DataItem.value (DataValue.strVal "x"))]), true⟩ : JsonItem).m_content
        = some (DataItem.object [("a", DataItem.value (DataValue.strVal "x"))])) ∧
    (∀ i ∈ (LTree.lobject 0 [("a", LTree.lvalue 1 (DataValue.strVal "x"))]).ids, i < 2) ∧
    (JsonItem.copyConstruct ⟨some (DataItem.object [("a", DataItem.value (DataValue.strVal "x"))]), true⟩
        = some ⟨some (DataItem.object [("a", DataItem.value (DataValue.strVal "x"))]), true⟩ ∧
    (LTree.copyFresh (LTree.lobject 0 [("a", LTree.lvalue 1 (DataValue.strVal "x"))]) 2).1.strip
        = (LTree.lobject 0 [("a", LTree.lvalue 1 (DataValue.strVal "x"))]).strip ∧
    (∀ (f : LTree → LTree) (i : Nat),
        i ∈ (LTree.copyFresh (LTree.lobject 0 [("a", LTree.lvalue 1 (DataValue.strVal "x"))]) 2).1.ids →
        (LTree.lobject 0 [("a", LTree.lvalue 1 (DataValue.strVal "x"))]).updateAt i f
          = LTree.lobject 0 [("a", LTree.lvalue 1 (DataValue.strVal "x"))]) ∧
    (∀ (f : LTree → LTree) (i : Nat),
        i ∈ (LTree.lobject 0 [("a", LTree.lvalue 1 (DataValue.strVal "x"))]).ids →
        (LTree.copyFresh (LTree.lobject 0 [("a", LTree.lvalue 1 (DataValue.strVal "x"))]) 2).1.updateAt i f
          = (LTree.copyFresh (LTree.lobject 0 [("a", LTree.lvalue 1 (DataValue.strVal "x"))]) 2).1)) :=
  ⟨rfl, by decide,
    C1_deep_copy_independence
      ⟨some (DataItem.object [("a", DataItem.value (DataValue.strVal "x"))]), true⟩
      (DataItem.object [("a", DataItem.value (DataValue.strVal "x"))])
      (LTree.lobject 0 [("a", LTree.lvalue 1 (DataValue.strVal "x"))]) 2
      rfl (by decide)⟩
